import Mathlib

/-!
Verification of the license discovery module of grayskull
(`grayskull/license/discovery.py`), as a shallow embedding in Lean 4.

Modelling conventions:
* Machine-level OS and network effects (HTTP GET, `os.walk`, file reads,
  `mkdtemp`, `git clone`) are supplied as explicit data or oracle functions in
  environment structures; functions that create temporary directories return,
  next to their result, the list of directories they created.
* Python functions that may raise return `Except String α`; the error string
  names the Python exception class.
* Paths are modelled as lists of path segments (`List String`), abstracting
  `os.path.join`/`os.path.relpath` and the platform separator.
* The fuzzywuzzy scorer `token_sort_ratio` is third-party code; it is modelled
  as an abstract parameter `score : String → String → Nat` (a 0–100 similarity
  measure), as only the selection/threshold logic built on top of it belongs to
  the repository.
-/

set_option autoImplicit false

namespace Grayskull

/-- Python/JSON values as returned by `response.json()`: only the shapes the
code inspects (`null`, strings, objects) are needed.  A JSON `null` and the
Python `None` default coincide, as in CPython. -/
inductive JVal where
  | null : JVal
  | str : String → JVal
  | obj : List (String × JVal) → JVal

/-- The `ShortLicense` dataclass of `discovery.py`.  `name` is a `JVal`
because `search_license_api_github` can store any JSON value there (e.g. the
`spdx_id` field or the caller's default, which may be Python `None`). -/
structure ShortLicense where
  name : JVal
  path : List String
  is_packaged : Bool

/-- `fuzzywuzzy.process.extractOne(query, choices, scorer=score)` with the
default `score_cutoff=0`: the best-scoring choice, ties broken by the first
choice in list order (Python's `max` keeps the first maximum); `None` on an
empty choice list. -/
def extractOne (score : String → String → Nat) (query : String) :
    List String → Option (String × Nat)
  | [] => none
  | c :: cs =>
    match extractOne score query cs with
    | none => some (c, score query c)
    | some (b, sb) =>
      if sb > score query c then some (b, sb) else some (c, score query c)

/-- Python truthiness of an `Optional[str]`: `None` and `""` are falsy. -/
def pyTruthyStr : Option String → Bool
  | none => false
  | some s => s != ""

/-- `get_license_type(path_license, default)` (discovery.py lines 174–186),
with the file content already read and the corpus `get_all_licenses()` passed
in as `all_licenses : List (canonicalId × referenceText)`.  An empty corpus
makes `process.extractOne` return `None` and the subsequent `best_match[1]`
subscript raise `TypeError`. -/
def get_license_type (score : String → String → Nat)
    (all_licenses : List (String × String)) (license_content : String)
    (default : Option String) : Except String String :=
  let licenses_text := all_licenses.map Prod.snd
  match extractOne score license_content licenses_text with
  | none => Except.error "TypeError"
  | some (best_text, best_score) =>
    if pyTruthyStr default && decide (best_score < 76) then
      Except.ok (default.getD "")
    else
      Except.ok ((all_licenses.getD (licenses_text.indexOf best_text) ("", "")).1)

/-- A concrete instance of the abstract similarity scorer, used to evaluate
the model on closed inputs: identical strings score 100, otherwise 0 (it is
trivially insensitive to token order). -/
def scoreEq (a b : String) : Nat := if a = b then 100 else 0

/-! ## Name normalization in `match_license` (discovery.py lines 28–31)

The code runs `name.strip()` followed by
`re.sub(r"\s*License\s*", "", name, re.IGNORECASE)`.  The fourth positional
parameter of `re.sub` is `count`, not `flags`, and `re.IGNORECASE == 2`, so
the call performs a CASE-SENSITIVE substitution limited to the first two
matches.  The model below reproduces that actual behavior. -/

/-- The ASCII whitespace characters matched by Python's `str.strip()` and by
the regex class `\s` (the inputs of interest are ASCII). -/
def pyWhitespace (c : Char) : Bool :=
  c == ' ' || c == '\t' || c == '\n' || c == '\r' || c == '\x0b' || c == '\x0c'

/-- Python `str.strip()`: remove leading and trailing whitespace. -/
def pyStrip (s : List Char) : List Char :=
  ((s.dropWhile pyWhitespace).reverse.dropWhile pyWhitespace).reverse

/-- Try to match the regex `\s*License\s*` at the head of `cs` (greedy `\s*`;
since no whitespace character can start the literal `License`, greedy matching
is deterministic here).  Returns the remainder after the match. -/
def licenseMatchAt (cs : List Char) : Option (List Char) :=
  let ws := cs.dropWhile pyWhitespace
  if ("License".toList).isPrefixOf ws then
    some ((ws.drop 7).dropWhile pyWhitespace)
  else none

/-- `re.sub(r"\s*License\s*", "", ·, count)`: scan left to right, replace each
non-overlapping match with the empty string, at most `count` times.  The first
argument is fuel, instantiated with the length of the character list (every
match consumes at least seven characters, so length-many steps suffice). -/
def reSubLicenseFuel : Nat → Nat → List Char → List Char
  | 0, _, cs => cs
  | _ + 1, _, [] => []
  | _ + 1, 0, cs => cs
  | fuel + 1, count + 1, c :: cs =>
    match licenseMatchAt (c :: cs) with
    | some rest => reSubLicenseFuel fuel count rest
    | none => c :: reSubLicenseFuel fuel (count + 1) cs

/-- `re.sub(r"\s*License\s*", "", cs, count)` on a character list. -/
def reSubLicense (count : Nat) (cs : List Char) : List Char :=
  reSubLicenseFuel cs.length count cs

/-- The name preprocessing performed by `match_license` before any corpus
lookup: `name.strip()` then `re.sub(r"\s*License\s*", "", name, re.IGNORECASE)`
— which, because `re.IGNORECASE` (= 2) lands in the `count` parameter, is a
case-sensitive removal of at most two occurrences. -/
def match_license_preprocess (name : String) : String :=
  String.mk (reSubLicense 2 (pyStrip name.toList))

/-! ## Filename matcher of `search_license_folder` (discovery.py lines 142–147)

`re.compile(r"(\bcopyright\b|\blicense[s]*\b|\bcopying\b|\bcopyleft\b)",
re.IGNORECASE)` used through `re_search.match(one_file)`: here `re.IGNORECASE`
is genuinely the `flags` argument of `re.compile`, and `.match` anchors the
match at the start of the filename. -/

/-- Python regex word characters (`\w`), restricted to ASCII. -/
def pyWordChar (c : Char) : Bool := c.isAlphanum || c == '_'

/-- A `\b` word boundary holds after the end of a word-character literal
exactly when the remaining input is empty or starts with a non-word
character. -/
def atWordBoundary : List Char → Bool
  | [] => true
  | c :: _ => !pyWordChar c

/-- Match the literal `w` at the head of `cs`, followed by a `\b` boundary. -/
def matchWordHere (w : List Char) (cs : List Char) : Bool :=
  w.isPrefixOf cs && atWordBoundary (cs.drop w.length)

/-- Match `license[s]*\b` at the head of `cs`: the literal, then any run of
`s` characters, then a word boundary.  Backtracking over `[s]*` cannot help:
any shorter run of `s` is followed by `s`, a word character. -/
def matchLicenseWordHere (cs : List Char) : Bool :=
  ("license".toList).isPrefixOf cs &&
    atWordBoundary ((cs.drop 7).dropWhile (fun c => c == 's'))

/-- `re_search.match(one_file)` as a Boolean: the alternation
`\bcopyright\b|\blicense[s]*\b|\bcopying\b|\bcopyleft\b`, case-insensitively
(modelled by lowercasing), anchored at the start of the filename.  The leading
`\b` of each alternative is automatic at position 0 because every literal
starts with a word character. -/
def re_search_match (one_file : String) : Bool :=
  let cs := one_file.toList.map Char.toLower
  matchWordHere ("copyright".toList) cs ||
    matchLicenseWordHere cs ||
    matchWordHere ("copying".toList) cs ||
    matchWordHere ("copyleft".toList) cs

/-! ## URL normalization (discovery.py lines 130–136 and 156–157) -/

/-- Does `l` start with the regex `github.com` (a literal except for the `.`
wildcard, which matches any character but a newline)?  If so, return `true`;
the match consumes ten characters. -/
def isGithubComAt (l : List Char) : Bool :=
  match l with
  | 'g' :: 'i' :: 't' :: 'h' :: 'u' :: 'b' :: c :: 'c' :: 'o' :: 'm' :: _ =>
    c != '\n'
  | _ => false

/-- `re.sub(r"github.com", "api.github.com/repos", ·)`: replace every
non-overlapping match, left to right, scanning resumes after the replacement.
The first argument is fuel, instantiated with the input length (a match
consumes ten characters). -/
def subGithubFuel : Nat → List Char → List Char
  | 0, cs => cs
  | _ + 1, [] => []
  | fuel + 1, c :: cs =>
    if isGithubComAt (c :: cs) then
      ("api.github.com/repos".toList) ++ subGithubFuel fuel ((c :: cs).drop 10)
    else
      c :: subGithubFuel fuel cs

/-- `_get_api_github_url(github_url, version)` (discovery.py lines 130–136). -/
def _get_api_github_url (github_url : String) (version : Option String) : String :=
  let u := String.mk (subGithubFuel github_url.toList.length github_url.toList)
  let u :=
    match u.toList.getLast? with
    | some '/' => u
    | _ => u ++ "/"
  let u := u ++ "license"
  match version with
  | some v => u ++ "?ref=" ++ v
  | none => u

/-- `str.endswith` on strings, computed on the underlying character lists. -/
def strEndsWith (s p : String) : Bool := p.toList.isSuffixOf s.toList

/-- The clone-URL normalization of `search_license_repo` (discovery.py lines
156–157): `re.sub(r"/$", ".git", git_url)` — a trailing slash becomes `.git`
— then append `.git` unless already present.  (The `$` of the Python regex
would also match just before a final newline; URLs with trailing newlines are
out of scope of this model.) -/
def cloneUrlNorm (git_url : String) : String :=
  let u :=
    if strEndsWith git_url "/" then String.mk git_url.toList.dropLast ++ ".git"
    else git_url
  if strEndsWith u ".git" then u else u ++ ".git"

/-- `_get_git_cmd(git_url, version, dest)` (discovery.py lines 167–171). -/
def _get_git_cmd (git_url : String) (version : Option String) (dest : String) :
    List String :=
  ["git", "clone"] ++
    (match version with
     | some v => ["-b", v]
     | none => []) ++ [git_url, dest]

/-! ## Local folder scanner (discovery.py lines 139–150)

The filesystem is supplied as the sequence `os.walk` would yield, paired with
the file contents: each entry is a directory (its path segments relative to
the walk root) together with its `(filename, content)` list. -/

/-- One `os.walk` view of a directory tree: entries in walk order. -/
abbrev WalkData : Type := List (List String × List (String × String))

/-- The first file in walk order whose name the license regex matches,
together with its joined path and its content (`for folder_path, _, filenames
in os.walk(...)` / `for one_file in filenames`). -/
def findLicenseFile : WalkData → Option (List String × String)
  | [] => none
  | (dir, files) :: rest =>
    match files.find? (fun f => re_search_match f.1) with
    | some f => some (dir ++ [f.1], f.2)
    | none => findLicenseFile rest

/-- `search_license_folder(path, default)` (discovery.py lines 139–150):
return on the first matching filename, classifying its content with
`get_license_type`; `is_packaged` starts out `false`. -/
def search_license_folder (score : String → String → Nat)
    (all_licenses : List (String × String)) (walk : WalkData)
    (default : Option String) : Except String (Option ShortLicense) :=
  match findLicenseFile walk with
  | none => Except.ok none
  | some (lc_path, content) =>
    match get_license_type score all_licenses content default with
    | Except.error e => Except.error e
    | Except.ok name => Except.ok (some ⟨JVal.str name, lc_path, false⟩)

/-! ## Discovery orchestrator `search_license_file` (discovery.py lines 77–107) -/

/-- The path rewriting of lines 89–94 in the path-segment model: the scanner
path is already relative to `folder_path` (os.path.relpath), separators are
canonical, and the leading segment is dropped when more than one remains. -/
def stripRootSegment (p : List String) : List String :=
  if p.length > 1 then p.drop 1 else p

/-- Lines 83–84: `if license_name_metadata: license_name_metadata =
get_short_license_id(license_name_metadata)` — resolution happens only for a
truthy name; `get_short_license_id` (which consults the external
`opensource` corpus) is abstracted as `resolve`. -/
def resolveMeta (resolve : String → String) : Option String → Option String
  | none => none
  | some s => if s != "" then some (resolve s) else some s

/-- `search_license_file(folder_path, git_url, version, license_name_metadata)`
(discovery.py lines 77–107).  The two remote fallbacks are injected as
`api_fetch`/`repo_fetch` oracles (in the code they are the module-level
functions, whose own bodies are modelled separately below). -/
def search_license_file (resolve : String → String)
    (score : String → String → Nat) (all_licenses : List (String × String))
    (walk : WalkData) (git_url : Option String) (version : Option String)
    (license_name_metadata : Option String)
    (api_fetch repo_fetch :
      String → Option String → Option String → Except String (Option ShortLicense)) :
    Except String (Option ShortLicense) :=
  let meta := resolveMeta resolve license_name_metadata
  match search_license_folder score all_licenses walk meta with
  | Except.error e => Except.error e
  | Except.ok (some license_sdist) =>
    Except.ok (some { license_sdist with
      is_packaged := true
      path := stripRootSegment license_sdist.path })
  | Except.ok none =>
    match git_url with
    | none => Except.ok none
    | some u =>
      if u == "" then Except.ok none
      else
        match api_fetch u version meta with
        | Except.error e => Except.error e
        | Except.ok (some github_license) => Except.ok (some github_license)
        | Except.ok none => repo_fetch u version meta

/-! ## Remote host API client (discovery.py lines 110–127)

`search_license_api_github` is the `lru_cache`-wrapped function; the wrapped
body is modelled here, and the cache dynamics separately further below. -/

/-- `dict`-style lookup on a JSON object: the value of the first binding of
key `k`, if any (JSON object keys are unique). -/
def jLookup (fields : List (String × JVal)) (k : String) : Option JVal :=
  (fields.find? (fun f => f.1 == k)).map (fun f => f.2)

/-- Python `dict.get(k, d)`: the stored value — whatever it is, including
`None` — when the key is present, else `d`. -/
def pyDictGet (fields : List (String × JVal)) (k : String) (d : JVal) : JVal :=
  (jLookup fields k).getD d

/-- An `Optional[str]` argument as the Python value it denotes. -/
def pyOptStr : Option String → JVal
  | none => JVal.null
  | some s => JVal.str s

/-- The name expression of line 126:
`json_content.get("license", {}).get("spdx_id", default)`.  When the
`license` key holds `null` (or any non-dict), the second `.get` is an
attribute access on a non-dict and raises `AttributeError`. -/
def spdxNameFromJson (json_content : List (String × JVal))
    (default : Option String) : Except String JVal :=
  match pyDictGet json_content "license" (JVal.obj []) with
  | JVal.obj fields => Except.ok (pyDictGet fields "spdx_id" (pyOptStr default))
  | JVal.null => Except.error "AttributeError"
  | JVal.str _ => Except.error "AttributeError"

/-- External world of the API client: `requests.get` as an oracle from the
request URL to a status code and parsed JSON body, the
`base64.b64decode(·).decode("utf-8")` pipeline (which can raise), and the
suffix `mkdtemp` appends to its prefix. -/
structure ApiEnv where
  http_get : String → Nat × List (String × JVal)
  b64_utf8_decode : String → Except String String
  tmpSuffix : String

/-- The body of `search_license_api_github(github_url, version, default)`
(discovery.py lines 110–127), without its `lru_cache` wrapper.  The second
component is the list of request URLs fetched over the network: exactly one
GET is issued on every path through the body. -/
def search_license_api_github_body (env : ApiEnv) (github_url : String)
    (version : Option String) (default : Option String) :
    Except String (Option ShortLicense) × List String :=
  let url := _get_api_github_url github_url version
  let status := (env.http_get url).1
  let json_content := (env.http_get url).2
  if status ≠ 200 then (Except.ok none, [url])
  else
    match jLookup json_content "content" with
    | none => (Except.error "KeyError", [url])
    | some JVal.null => (Except.error "TypeError", [url])
    | some (JVal.obj _) => (Except.error "TypeError", [url])
    | some (JVal.str content_b64) =>
      match env.b64_utf8_decode content_b64 with
      | Except.error e => (Except.error e, [url])
      | Except.ok _license_content =>
        let file_path : List String := ["github-license-" ++ env.tmpSuffix, "LICENSE"]
        match spdxNameFromJson json_content default with
        | Except.error e => (Except.error e, [url])
        | Except.ok name => (Except.ok (some ⟨name, file_path, false⟩), [url])

/-! ## Repository clone fallback (discovery.py lines 153–164) -/

/-- External world of the clone fallback: the suffix `mkdtemp` appends to the
`"gs-clone-repo-"` prefix, and `subprocess.check_output` as an oracle from
the git command line to either a raised exception or the `os.walk` view of
the destination directory after a successful clone. -/
structure RepoEnv where
  tmpSuffix : String
  check_output : List String → Except String WalkData

/-- `search_license_repo(git_url, version, default)` (discovery.py lines
153–164): normalize the clone URL, create a fresh temporary directory, run
`git clone`; any exception from the subprocess is swallowed (`except
Exception: return None`).  The second component lists the temporary
directories created; nothing is ever cleaned up. -/
def search_license_repo (env : RepoEnv) (score : String → String → Nat)
    (all_licenses : List (String × String)) (git_url : String)
    (version : Option String) (default : Option String) :
    Except String (Option ShortLicense) × List String :=
  let url := cloneUrlNorm git_url
  let tmp_dir := "gs-clone-repo-" ++ env.tmpSuffix
  match env.check_output (_get_git_cmd url version tmp_dir) with
  | Except.error _ => (Except.ok none, [tmp_dir])
  | Except.ok walk => (search_license_folder score all_licenses walk default, [tmp_dir])

/-! ## The `lru_cache(maxsize=13)` wrapper on `search_license_api_github`

`functools.lru_cache` keys on the full positional argument tuple
`(github_url, version, default)`.  The model tracks the cached key set in
most-recently-used-first order; cached values are irrelevant to which calls
reach the network, so only keys are kept.  A call whose underlying body
raises is not cached (`ok k = false` marks such keys). -/

/-- A cache key of `search_license_api_github`: `(github_url, version,
default)`. -/
abbrev ApiKey : Type := String × Option String × Option String

/-- One call through the `lru_cache` wrapper: on a hit the key moves to the
front and the body is not run; on a miss the body runs (second component
`true`) and, if it returns normally (`ok k`), the key is inserted in front,
evicting the least recently used entry beyond capacity `cap`. -/
def lruStep {K : Type} [DecidableEq K] (cap : Nat) (ok : K → Bool)
    (st : List K) (k : K) : List K × Bool :=
  if k ∈ st then (k :: st.erase k, false)
  else ((if ok k then (k :: st).take cap else st), true)

/-- Run a sequence of calls through the cache, returning the keys that missed
— i.e. the calls on which the wrapped body (and hence one network GET per
call, see `search_license_api_github_body`) actually ran. -/
def lruRun {K : Type} [DecidableEq K] (cap : Nat) (ok : K → Bool)
    (st : List K) : List K → List K
  | [] => []
  | k :: ks =>
    let s := lruStep cap ok st k
    (if s.2 then [k] else []) ++ lruRun cap ok s.1 ks

/-- How many entries of `log` equal `k`. -/
def keyCount {K : Type} [DecidableEq K] (log : List K) (k : K) : Nat :=
  (log.filter (fun x => decide (x = k))).length

/-- How many calls in `log` carry the host-URL/revision pair `(u, v)`
(regardless of the `default` argument, which the claim abstracts over). -/
def requestsForPair (log : List ApiKey) (u : String) (v : Option String) : Nat :=
  (log.filter (fun x => decide (x.1 = u ∧ x.2.1 = v))).length

/-! ## Concrete instances used to evaluate the model on closed inputs -/

/-- A fragment of the MIT reference text, standing in for a corpus entry. -/
def mitText : String :=
  "Permission is hereby granted, free of charge, to any person obtaining a copy"

/-- A one-entry corpus mapping the canonical id `MIT` to `mitText`. -/
def mitCorpus : List (String × String) := [("MIT", mitText)]

/-- The walk of a folder whose root contains only `LICENSE.txt` with the MIT
text. -/
def mitWalk : WalkData := [([], [("LICENSE.txt", mitText)])]

/-- An API world whose host answers 404 to every request. -/
def apiEnv404 : ApiEnv :=
  ⟨fun _ => (404, []), fun _ => Except.error "binascii.Error", "t0"⟩

/-- An API world answering 200 with a body whose `license` field is JSON
`null` (as the GitHub API returns for unrecognized licenses). -/
def apiEnvNullLicense : ApiEnv :=
  ⟨fun _ => (200, [("content", JVal.str "UGVybWlzc2lvbg=="), ("license", JVal.null)]),
   fun _ => Except.ok "Permission", "t1"⟩

/-- An API world answering 200 with a body that has no `license` key. -/
def apiEnvNoLicenseKey : ApiEnv :=
  ⟨fun _ => (200, [("content", JVal.str "UGVybWlzc2lvbg==")]),
   fun _ => Except.ok "Permission", "t2"⟩

/-- A clone world where every `git clone` invocation raises. -/
def repoEnvCloneFail : RepoEnv :=
  ⟨"r0", fun _ => Except.error "subprocess.CalledProcessError"⟩

/-- A remote-fetch oracle that always comes back empty. -/
def noFetch : String → Option String → Option String →
    Except String (Option ShortLicense) :=
  fun _ _ _ => Except.ok none

/-! # Theorems -/

/-! ## Helper lemmas about `extractOne` -/

theorem extractOne_of_ne_nil {score : String → String → Nat} {q : String} :
    ∀ {l : List String}, l ≠ [] → ∃ b s, extractOne score q l = some (b, s)
  | [], h => absurd rfl h
  | c :: cs, _ => by
    cases h2 : extractOne score q cs with
    | none => exact ⟨c, score q c, by simp [extractOne, h2]⟩
    | some bs =>
      by_cases hgt : bs.2 > score q c
      · exact ⟨bs.1, bs.2, by simp [extractOne, h2, hgt]⟩
      · exact ⟨c, score q c, by simp [extractOne, h2, hgt]⟩

theorem extractOne_spec {score : String → String → Nat} {q : String} :
    ∀ {l : List String} {b : String} {s : Nat},
      extractOne score q l = some (b, s) →
      b ∈ l ∧ s = score q b ∧ ∀ c ∈ l, score q c ≤ s := by
  intro l
  induction l with
  | nil => intro b s h; simp [extractOne] at h
  | cons c cs ih =>
    intro b s h
    rw [extractOne] at h
    cases h2 : extractOne score q cs with
    | none =>
      rw [h2] at h
      have hnil : cs = [] := by
        cases cs with
        | nil => rfl
        | cons c' cs' =>
          exfalso
          rcases @extractOne_of_ne_nil score q (c' :: cs') (by simp)
            with ⟨b', s', h3⟩
          rw [h3] at h2
          exact Option.noConfusion h2
      simp only [Option.some.injEq, Prod.mk.injEq] at h
      obtain ⟨rfl, rfl⟩ := h
      subst hnil
      exact ⟨by simp, rfl, by simp⟩
    | some bs =>
      obtain ⟨b2, s2⟩ := bs
      obtain ⟨hmem2, hs2, hle2⟩ := ih h2
      rw [h2] at h
      dsimp only at h
      by_cases hgt : s2 > score q c
      · rw [if_pos hgt] at h
        simp only [Option.some.injEq, Prod.mk.injEq] at h
        obtain ⟨rfl, rfl⟩ := h
        refine ⟨List.mem_cons_of_mem _ hmem2, hs2, ?_⟩
        intro x hx
        rcases List.mem_cons.mp hx with rfl | hx2
        · exact Nat.le_of_lt hgt
        · exact hle2 x hx2
      · rw [if_neg hgt] at h
        simp only [Option.some.injEq, Prod.mk.injEq] at h
        obtain ⟨rfl, rfl⟩ := h
        refine ⟨List.mem_cons_self _ _, rfl, ?_⟩
        intro x hx
        rcases List.mem_cons.mp hx with rfl | hx2
        · exact Nat.le_refl _
        · exact Nat.le_trans (hle2 x hx2) (Nat.le_of_not_lt hgt)

/-! ## C1: classifier selection and threshold behavior -/

/-- C1 (amended): on a non-empty corpus, `get_license_type` selects a corpus
entry of maximal similarity score (first such entry in corpus order); if the
supplied default is truthy (non-`None`, non-empty) and the winning score is
strictly below 76 it returns the default, and otherwise — including when the
supplied default is the empty string — it returns the best match's canonical
id regardless of score. -/
theorem get_license_type_best_match (score : String → String → Nat)
    (all_licenses : List (String × String)) (content : String)
    (default : Option String) (hne : all_licenses ≠ []) :
    ∃ i, i < all_licenses.length ∧
      (∀ j, j < all_licenses.length →
        score content ((all_licenses.getD j ("", "")).2) ≤
          score content ((all_licenses.getD i ("", "")).2)) ∧
      get_license_type score all_licenses content default =
        (if pyTruthyStr default &&
            decide (score content ((all_licenses.getD i ("", "")).2) < 76) then
          Except.ok (default.getD "")
        else
          Except.ok ((all_licenses.getD i ("", "")).1)) := by
  have htne : all_licenses.map Prod.snd ≠ [] := by
    simpa using hne
  obtain ⟨b, s, hbs⟩ :=
    @extractOne_of_ne_nil score content (all_licenses.map Prod.snd) htne
  obtain ⟨hmem, hs, hle⟩ := extractOne_spec hbs
  have hi : (all_licenses.map Prod.snd).indexOf b <
      (all_licenses.map Prod.snd).length :=
    List.indexOf_lt_length.mpr hmem
  have hlen : (all_licenses.map Prod.snd).length = all_licenses.length :=
    List.length_map _ _
  have hib : (all_licenses.map Prod.snd).getD
      ((all_licenses.map Prod.snd).indexOf b) "" = b := by
    rw [List.getD_eq_getElem _ _ hi]
    exact List.getElem_indexOf hi
  have hgetd : ∀ j : Nat, j < all_licenses.length →
      (all_licenses.getD j ("", "")).2 =
        (all_licenses.map Prod.snd).getD j "" := by
    intro j hj
    have hj2 : j < (all_licenses.map Prod.snd).length := by
      rw [hlen]; exact hj
    rw [List.getD_eq_getElem _ _ hj, List.getD_eq_getElem _ _ hj2]
    exact (List.getElem_map _).symm
  refine ⟨(all_licenses.map Prod.snd).indexOf b, hlen ▸ hi, ?_, ?_⟩
  · intro j hj
    have hj2 : j < (all_licenses.map Prod.snd).length := by
      rw [hlen]; exact hj
    have hmemj : (all_licenses.map Prod.snd).getD j "" ∈
        all_licenses.map Prod.snd := by
      rw [List.getD_eq_getElem _ _ hj2]
      exact List.getElem_mem _
    rw [hgetd j hj, hgetd _ (hlen ▸ hi), hib, ← hs]
    exact hle _ hmemj
  · have hscore : score content
        ((all_licenses.getD ((all_licenses.map Prod.snd).indexOf b) ("", "")).2) = s := by
      rw [hgetd _ (hlen ▸ hi), hib, ← hs]
    rw [hscore]
    simp only [get_license_type]
    rw [hbs]

/-- C1 witness: the amended statement applied to the one-entry MIT corpus,
classifying the MIT text itself with no default. -/
theorem get_license_type_best_match_witness :
    (mitCorpus ≠ []) ∧
    (∃ i, i < mitCorpus.length ∧
      (∀ j, j < mitCorpus.length →
        scoreEq mitText ((mitCorpus.getD j ("", "")).2) ≤
          scoreEq mitText ((mitCorpus.getD i ("", "")).2)) ∧
      get_license_type scoreEq mitCorpus mitText none =
        (if pyTruthyStr none &&
            decide (scoreEq mitText ((mitCorpus.getD i ("", "")).2) < 76) then
          Except.ok ((none : Option String).getD "")
        else
          Except.ok ((mitCorpus.getD i ("", "")).1))) :=
  ⟨by decide, get_license_type_best_match scoreEq mitCorpus mitText none (by decide)⟩

/-- C1 counterexample: the claim as stated fails for a supplied but empty
default.  `default = some ""` is supplied, the winning score (0) is strictly
below 76, yet the code returns the best match's id `MIT`, not the default:
`if default and best_match[1] < 76` is skipped because the empty string is
falsy in Python. -/
theorem get_license_type_supplied_default_cex :
    scoreEq "not a license text" mitText < 76 ∧
    get_license_type scoreEq mitCorpus "not a license text" (some "") =
      Except.ok "MIT" ∧
    get_license_type scoreEq mitCorpus "not a license text" (some "") ≠
      Except.ok "" :=
  ⟨by decide, rfl, fun h => absurd (Except.ok.inj h) (by decide)⟩

/-! ## C3: name normalization in `match_license` -/

/-- C3: evaluation of the code at the failing input.  The claim (and the
spec) say the word `License` is removed case-insensitively, so that both
`"MIT license"` and `"MIT License"` reduce to `"MIT"`.  The code passes
`re.IGNORECASE` in `re.sub`'s `count` parameter, so matching is
case-sensitive: `"MIT license"` is left unchanged, while `"MIT License"`
(whose casing happens to match the pattern literally) does reduce to
`"MIT"`; surrounding whitespace is stripped as claimed. -/
theorem match_license_preprocess_case_sensitive :
    match_license_preprocess "MIT license" = "MIT license" ∧
    match_license_preprocess "MIT license" ≠ "MIT" ∧
    match_license_preprocess "MIT License" = "MIT" ∧
    match_license_preprocess "  MIT License " = "MIT" :=
  ⟨rfl, by decide, rfl, rfl⟩

/-! ## C4: the scanner's filename test -/

/-- C4: the filename pattern
`(\bcopyright\b|\blicense[s]*\b|\bcopying\b|\bcopyleft\b)` with
`re.IGNORECASE`, applied with `re.match` (anchored at the start): `LICENSE`,
`License.md`, `COPYING`, `copyright.txt`, `LICENSE.txt` and `LICENSE-MIT`
all match, while `publicity.txt` and `licensed-premises.txt` do not. -/
theorem re_search_filename_cases :
    re_search_match "LICENSE" = true ∧
    re_search_match "License.md" = true ∧
    re_search_match "COPYING" = true ∧
    re_search_match "copyright.txt" = true ∧
    re_search_match "LICENSE.txt" = true ∧
    re_search_match "LICENSE-MIT" = true ∧
    re_search_match "publicity.txt" = false ∧
    re_search_match "licensed-premises.txt" = false :=
  ⟨rfl, rfl, rfl, rfl, rfl, rfl, rfl, rfl⟩

/-! ## C8: URL normalization on both remote paths -/

/-- C8: `_get_api_github_url` maps `https://github.com/org/repo` to
`https://api.github.com/repos/org/repo/license`, appending `?ref=revision`
exactly when a revision is given; the clone-URL normalization of
`search_license_repo` replaces a trailing slash by `.git`, appends `.git`
when missing, and leaves a `.git` URL unchanged. -/
theorem url_normalization_cases :
    _get_api_github_url "https://github.com/org/repo" none =
      "https://api.github.com/repos/org/repo/license" ∧
    _get_api_github_url "https://github.com/org/repo" (some "1.2.3") =
      "https://api.github.com/repos/org/repo/license?ref=1.2.3" ∧
    cloneUrlNorm "https://github.com/org/repo/" = "https://github.com/org/repo.git" ∧
    cloneUrlNorm "https://github.com/org/repo" = "https://github.com/org/repo.git" ∧
    cloneUrlNorm "https://github.com/org/repo.git" = "https://github.com/org/repo.git" :=
  ⟨rfl, rfl, rfl, rfl, rfl⟩

/-! ## C5: the orchestrator's local-found branch -/

/-- C5: whenever the folder scan inside `search_license_file` finds a license
file, the orchestrator returns it with `is_packaged` set to `true` and its
path rewritten relative to the root with the leading segment stripped (when
more than one segment remains). -/
theorem search_license_file_local_found (resolve : String → String)
    (score : String → String → Nat) (all_licenses : List (String × String))
    (walk : WalkData) (git_url version license_name_metadata : Option String)
    (api_fetch repo_fetch :
      String → Option String → Option String → Except String (Option ShortLicense))
    (sl : ShortLicense)
    (h : search_license_folder score all_licenses walk
        (resolveMeta resolve license_name_metadata) = Except.ok (some sl)) :
    search_license_file resolve score all_licenses walk git_url version
      license_name_metadata api_fetch repo_fetch =
      Except.ok (some ⟨sl.name, stripRootSegment sl.path, true⟩) := by
  simp only [search_license_file, h]

/-- C5 witness: a folder containing only `LICENSE.txt` with the MIT text,
classified against the one-entry MIT corpus, yields
`{name: "MIT", is_packaged: true, path: ["LICENSE.txt"]}` (single-segment
path, so nothing is stripped — matching the claim's concrete example). -/
theorem search_license_file_local_found_witness :
    search_license_folder scoreEq mitCorpus mitWalk (resolveMeta id none) =
      Except.ok (some ⟨JVal.str "MIT", ["LICENSE.txt"], false⟩) ∧
    search_license_file id scoreEq mitCorpus mitWalk none none none noFetch noFetch =
      Except.ok (some ⟨JVal.str "MIT", ["LICENSE.txt"], true⟩) :=
  ⟨rfl, search_license_file_local_found id scoreEq mitCorpus mitWalk none none none
    noFetch noFetch ⟨JVal.str "MIT", ["LICENSE.txt"], false⟩ rfl⟩

/-! ## C6: the clone fallback absorbs clone failures -/

/-- C6: whenever `subprocess.check_output` on the git command raises — for
any reason: bad URL, unreachable host, missing revision, missing binary —
`search_license_repo` returns `None` instead of propagating the error
(`except Exception: return None`). -/
theorem search_license_repo_clone_failure (env : RepoEnv)
    (score : String → String → Nat) (all_licenses : List (String × String))
    (git_url : String) (version default : Option String) (e : String)
    (h : env.check_output (_get_git_cmd (cloneUrlNorm git_url) version
        ("gs-clone-repo-" ++ env.tmpSuffix)) = Except.error e) :
    (search_license_repo env score all_licenses git_url version default).1 =
      Except.ok none := by
  simp only [search_license_repo, h]

/-- C6 witness: a world whose every clone invocation raises
`CalledProcessError` still yields a normal `None` return. -/
theorem search_license_repo_clone_failure_witness :
    repoEnvCloneFail.check_output (_get_git_cmd
        (cloneUrlNorm "https://github.com/org/repo") (some "1.0")
        ("gs-clone-repo-" ++ repoEnvCloneFail.tmpSuffix)) =
      Except.error "subprocess.CalledProcessError" ∧
    (search_license_repo repoEnvCloneFail scoreEq mitCorpus
      "https://github.com/org/repo" (some "1.0") none).1 = Except.ok none :=
  ⟨rfl, search_license_repo_clone_failure repoEnvCloneFail scoreEq mitCorpus
    "https://github.com/org/repo" (some "1.0") none
    "subprocess.CalledProcessError" rfl⟩

/-! ## C10: the clone fallback always creates (and never removes) its
temporary directory -/

/-- C10: every call to `search_license_repo` creates exactly one fresh
temporary directory, named with the `gs-clone-repo-` prefix, before the clone
is attempted; since the function contains no cleanup, the directory is left
behind on every path — in particular when the clone fails (the quantified
`env` covers every failing world, cf. `search_license_repo_clone_failure`). -/
theorem search_license_repo_tmpdir_created (env : RepoEnv)
    (score : String → String → Nat) (all_licenses : List (String × String))
    (git_url : String) (version default : Option String) :
    (search_license_repo env score all_licenses git_url version default).2 =
      ["gs-clone-repo-" ++ env.tmpSuffix] := by
  simp only [search_license_repo]
  cases env.check_output (_get_git_cmd (cloneUrlNorm git_url) version
    ("gs-clone-repo-" ++ env.tmpSuffix)) <;> rfl

/-! ## C7: non-200 host-API responses -/

/-- C7: for every response whose status code is not 200,
`search_license_api_github` (body) returns `None`; exactly one GET request is
issued (the request log is the singleton of the API URL) and no non-200
status is treated differently from any other. -/
theorem search_license_api_github_non200 (env : ApiEnv) (github_url : String)
    (version default : Option String)
    (h : (env.http_get (_get_api_github_url github_url version)).1 ≠ 200) :
    search_license_api_github_body env github_url version default =
      (Except.ok none, [_get_api_github_url github_url version]) := by
  simp only [search_license_api_github_body]
  rw [if_pos h]

/-- C7 witness: a host answering 404 produces `None` after a single GET. -/
theorem search_license_api_github_non200_witness :
    (apiEnv404.http_get (_get_api_github_url "https://github.com/org/repo" none)).1 ≠ 200 ∧
    search_license_api_github_body apiEnv404 "https://github.com/org/repo" none
        (some "Other") =
      (Except.ok none, [_get_api_github_url "https://github.com/org/repo" none]) :=
  ⟨by decide, search_license_api_github_non200 apiEnv404 "https://github.com/org/repo"
    none (some "Other") (by decide)⟩

/-! ## C9: when the caller-supplied default is used in a 200 response -/

/-- C9: in a 200 response whose content decodes, the default is used as name
exactly when the `license` key is absent or its object lacks `spdx_id`; a
present `spdx_id` value is used verbatim; and a `license` key holding JSON
`null` makes the call raise `AttributeError` (`None.get`) instead of
returning the default. -/
theorem search_license_api_github_default_name (env : ApiEnv)
    (github_url : String) (version default : Option String)
    (content_b64 decoded : String)
    (h200 : (env.http_get (_get_api_github_url github_url version)).1 = 200)
    (hc : jLookup (env.http_get (_get_api_github_url github_url version)).2 "content" =
      some (JVal.str content_b64))
    (hdec : env.b64_utf8_decode content_b64 = Except.ok decoded) :
    (jLookup (env.http_get (_get_api_github_url github_url version)).2 "license" = none →
      (search_license_api_github_body env github_url version default).1 =
        Except.ok (some ⟨pyOptStr default,
          ["github-license-" ++ env.tmpSuffix, "LICENSE"], false⟩)) ∧
    (∀ fields,
      jLookup (env.http_get (_get_api_github_url github_url version)).2 "license" =
        some (JVal.obj fields) →
      jLookup fields "spdx_id" = none →
      (search_license_api_github_body env github_url version default).1 =
        Except.ok (some ⟨pyOptStr default,
          ["github-license-" ++ env.tmpSuffix, "LICENSE"], false⟩)) ∧
    (∀ fields v,
      jLookup (env.http_get (_get_api_github_url github_url version)).2 "license" =
        some (JVal.obj fields) →
      jLookup fields "spdx_id" = some v →
      (search_license_api_github_body env github_url version default).1 =
        Except.ok (some ⟨v,
          ["github-license-" ++ env.tmpSuffix, "LICENSE"], false⟩)) ∧
    (jLookup (env.http_get (_get_api_github_url github_url version)).2 "license" =
        some JVal.null →
      (search_license_api_github_body env github_url version default).1 =
        Except.error "AttributeError") := by
  have hne : ¬ ((env.http_get (_get_api_github_url github_url version)).1 ≠ 200) :=
    fun hx => hx h200
  refine ⟨?_, ?_, ?_, ?_⟩
  · intro hlic
    simp only [search_license_api_github_body, spdxNameFromJson, pyDictGet]
    rw [if_neg hne, hc]
    dsimp only
    rw [hdec]
    dsimp only
    rw [hlic]
    rfl
  · intro fields hlic hspdx
    simp only [search_license_api_github_body, spdxNameFromJson, pyDictGet]
    rw [if_neg hne, hc]
    dsimp only
    rw [hdec]
    dsimp only
    rw [hlic]
    dsimp only [Option.getD]
    rw [hspdx]
  · intro fields v hlic hspdx
    simp only [search_license_api_github_body, spdxNameFromJson, pyDictGet]
    rw [if_neg hne, hc]
    dsimp only
    rw [hdec]
    dsimp only
    rw [hlic]
    dsimp only [Option.getD]
    rw [hspdx]
  · intro hlic
    simp only [search_license_api_github_body, spdxNameFromJson, pyDictGet]
    rw [if_neg hne, hc]
    dsimp only
    rw [hdec]
    dsimp only
    rw [hlic]
    rfl

/-- C9 witness: a 200 body without a `license` key yields the default
`Other`; a 200 body with `license: null` raises `AttributeError`. -/
theorem search_license_api_github_default_name_witness :
    (search_license_api_github_body apiEnvNoLicenseKey "https://github.com/org/repo"
        none (some "Other")).1 =
      Except.ok (some ⟨pyOptStr (some "Other"),
        ["github-license-" ++ apiEnvNoLicenseKey.tmpSuffix, "LICENSE"], false⟩) ∧
    (search_license_api_github_body apiEnvNullLicense "https://github.com/org/repo"
        none (some "Other")).1 =
      Except.error "AttributeError" :=
  ⟨(search_license_api_github_default_name apiEnvNoLicenseKey
      "https://github.com/org/repo" none (some "Other")
      "UGVybWlzc2lvbg==" "Permission" rfl rfl rfl).1 rfl,
   (search_license_api_github_default_name apiEnvNullLicense
      "https://github.com/org/repo" none (some "Other")
      "UGVybWlzc2lvbg==" "Permission" rfl rfl rfl).2.2.2 rfl⟩

/-! ## C2: memoization of the host-API fetch -/

theorem keyCount_cons {K : Type} [DecidableEq K] (a k : K) (l : List K) :
    keyCount (a :: l) k = (if a = k then 1 else 0) + keyCount l k := by
  by_cases h : a = k <;>
    simp [keyCount, List.filter_cons, h, Nat.add_comm]

theorem lruRun_keyCount_le {K : Type} [DecidableEq K] (cap : Nat) (ok : K → Bool)
    (calls : List K) : ∀ st : List K, st.Nodup →
    (st ++ calls).toFinset.card ≤ cap → (∀ k ∈ calls, ok k = true) →
    ∀ k, keyCount (lruRun cap ok st calls) k ≤ if k ∈ st then 0 else 1 := by
  induction calls with
  | nil =>
    intro st _ _ _ k
    simp only [lruRun, keyCount, List.filter_nil, List.length_nil]
    split <;> omega
  | cons k1 rest ih =>
    intro st hnd hcard hok k
    have hok2 : ∀ x ∈ rest, ok x = true := fun x hx => hok x (List.mem_cons_of_mem _ hx)
    by_cases hmem : k1 ∈ st
    · have hstep : lruStep cap ok st k1 = (k1 :: st.erase k1, false) := by
        simp [lruStep, hmem]
      have hperm : List.Perm st (k1 :: st.erase k1) := List.perm_cons_erase hmem
      have hnd2 : (k1 :: st.erase k1).Nodup := hperm.nodup hnd
      have hfin : ((k1 :: st.erase k1) ++ rest).toFinset.card ≤ cap := by
        have h1 : List.Perm (st ++ rest) ((k1 :: st.erase k1) ++ rest) :=
          hperm.append_right rest
        rw [← List.toFinset_eq_of_perm _ _ h1]
        refine le_trans (Finset.card_le_card ?_) hcard
        rw [List.toFinset_append, List.toFinset_append]
        refine Finset.union_subset_union (le_refl _) ?_
        rw [List.toFinset_cons]
        exact Finset.subset_insert _ _
      have hbound := ih (k1 :: st.erase k1) hnd2 hfin hok2 k
      show keyCount ((if (lruStep cap ok st k1).2 then [k1] else []) ++
        lruRun cap ok (lruStep cap ok st k1).1 rest) k ≤ _
      rw [hstep]
      dsimp only
      refine le_trans hbound ?_
      by_cases hk : k ∈ st
      · rw [if_pos hk, if_pos (hperm.mem_iff.mp hk)]
      · rw [if_neg hk, if_neg (fun hx => hk (hperm.mem_iff.mpr hx))]
    · have hok1 : ok k1 = true := hok k1 (List.mem_cons_self _ _)
      have hstep : lruStep cap ok st k1 = ((k1 :: st).take cap, true) := by
        simp [lruStep, hmem, hok1]
      have hlen1 : st.length + 1 ≤ cap := by
        have h1 : insert k1 st.toFinset ⊆ (st ++ (k1 :: rest)).toFinset := by
          rw [List.toFinset_append, List.toFinset_cons]
          intro x hx
          rcases Finset.mem_insert.mp hx with rfl | hx2
          · exact Finset.mem_union_right _ (Finset.mem_insert_self _ _)
          · exact Finset.mem_union_left _ hx2
        have h2 : (insert k1 st.toFinset).card = st.length + 1 := by
          rw [Finset.card_insert_of_not_mem (fun hx => hmem (List.mem_toFinset.mp hx)),
            List.toFinset_card_of_nodup hnd]
        calc st.length + 1 = (insert k1 st.toFinset).card := h2.symm
          _ ≤ (st ++ (k1 :: rest)).toFinset.card := Finset.card_le_card h1
          _ ≤ cap := hcard
      have htake : (k1 :: st).take cap = k1 :: st :=
        List.take_of_length_le (by simpa using hlen1)
      have hnd2 : (k1 :: st).Nodup := List.nodup_cons.mpr ⟨hmem, hnd⟩
      have hfin2 : ((k1 :: st) ++ rest).toFinset.card ≤ cap := by
        have hsame : ((k1 :: st) ++ rest).toFinset = (st ++ (k1 :: rest)).toFinset := by
          apply List.toFinset.ext
          intro x
          simp only [List.mem_append, List.mem_cons]
          tauto
        rw [hsame]
        exact hcard
      have hbound := ih (k1 :: st) hnd2 hfin2 hok2
      show keyCount ((if (lruStep cap ok st k1).2 then [k1] else []) ++
        lruRun cap ok (lruStep cap ok st k1).1 rest) k ≤ _
      rw [hstep]
      dsimp only
      rw [htake]
      rw [if_pos rfl]
      have hcc : keyCount (k1 :: lruRun cap ok (k1 :: st) rest) k =
          (if k1 = k then 1 else 0) + keyCount (lruRun cap ok (k1 :: st) rest) k :=
        keyCount_cons _ _ _
      rw [show (([k1] ++ lruRun cap ok (k1 :: st) rest : List K)) =
        k1 :: lruRun cap ok (k1 :: st) rest from rfl]
      rw [hcc]
      by_cases hk : k1 = k
      · subst hk
        rw [if_pos rfl, if_neg hmem]
        have hb := hbound k1
        rw [if_pos (List.mem_cons_self _ _)] at hb
        omega
      · rw [if_neg hk]
        have hb := hbound k
        by_cases hk2 : k ∈ st
        · rw [if_pos hk2]
          rw [if_pos (List.mem_cons_of_mem _ hk2)] at hb
          omega
        · rw [if_neg hk2]
          rw [if_neg (fun hx => by
            rcases List.mem_cons.mp hx with h | h
            · exact hk h.symm
            · exact hk2 h)] at hb
          omega

/-- C2 (amended): `search_license_api_github` is memoized by its full
argument triple `(github_url, version, default)` in an LRU cache of maximum
size 13: over any call sequence using at most 13 distinct triples, where no
call raises, each triple runs the wrapped body — and hence issues a network
request — at most once; later calls with a cached triple are served from the
cache.  (With more than 13 distinct triples, eviction allows re-fetching, and
the same `(github_url, version)` pair with two defaults occupies two cache
slots — see the counterexample.) -/
theorem search_license_api_github_memoized (ok : ApiKey → Bool)
    (calls : List ApiKey) (hcard : calls.toFinset.card ≤ 13)
    (hok : ∀ k ∈ calls, ok k = true) (k : ApiKey) :
    keyCount (lruRun 13 ok [] calls) k ≤ 1 := by
  have h := lruRun_keyCount_le 13 ok calls [] List.nodup_nil
    (by simpa using hcard) hok k
  simpa using h

/-- C2 witness: the same triple called twice reaches the network at most
once. -/
theorem search_license_api_github_memoized_witness :
    (([("https://github.com/org/repo", some "1.0", some "Other"),
       ("https://github.com/org/repo", some "1.0", some "Other")] :
        List ApiKey).toFinset.card ≤ 13) ∧
    keyCount (lruRun 13 (fun _ => true) []
        [("https://github.com/org/repo", some "1.0", some "Other"),
         ("https://github.com/org/repo", some "1.0", some "Other")])
      ("https://github.com/org/repo", some "1.0", some "Other") ≤ 1 :=
  ⟨by decide,
   search_license_api_github_memoized (fun _ => true) _ (by decide)
     (fun _ _ => rfl) _⟩

/-- C2 counterexample: the claim as stated — at most one network request per
`(hostUrl, revision)` pair over the process lifetime — is false, because the
`lru_cache` key also contains the `default` argument: two calls with the same
pair but different defaults both miss the cache and both reach the network
(two requests for the pair). -/
theorem search_license_api_github_pair_cex :
    requestsForPair (lruRun 13 (fun _ => true) []
        [("https://github.com/org/repo", some "1.0", some "Other"),
         ("https://github.com/org/repo", some "1.0", some "MIT")])
      "https://github.com/org/repo" (some "1.0") = 2 ∧
    ¬ (requestsForPair (lruRun 13 (fun _ => true) []
        [("https://github.com/org/repo", some "1.0", some "Other"),
         ("https://github.com/org/repo", some "1.0", some "MIT")])
      "https://github.com/org/repo" (some "1.0") ≤ 1) :=
  ⟨rfl, by decide⟩

end Grayskull
